import Mathlib

/-!
# Verification of the csv-to-html aggregation and rendering pipeline

Shallow embedding of `src/csv2html.py`. The program reads a CSV into a
dataframe and, for each requested data column:

* `total = df.groupby(key_column)[col].count()` — partitions the rows by the
  key column (pandas drops rows whose key is null and sorts the distinct group
  keys, `sort=True` being the default), then counts the non-null values of
  `col` in each group;
* `passes = df[df[col].str.lower() == 'pass'].groupby(key_column)[col].count()`
  — keeps the rows whose `col` value lower-cases to `"pass"` (a null value
  never matches, since `NaN.str.lower()` is `NaN` and `NaN == 'pass'` is
  false), partitions those by the key, and counts the non-null values;
* `percentage = (passes / total * 100).fillna(0)` — the only NaN arises from
  `0 / 0` (when `total = 0` then also `passes = 0`), and `fillna` maps it to 0;
* the chart dataset is a header row `[key_column, 'Pass Percentage']` followed
  by one row `[key, percentage]` per group key, in the groupby (sorted) order.

Cell values are modelled as `Option String`: `none` is a null (NaN) cell, as
produced by `pd.read_csv` for blank fields. Percentages are modelled exactly
as rationals. String comparison for the groupby sort is code-point
lexicographic, matching Python string ordering.
-/

namespace CsvToHtml

/-- A table row projected to the key column and one data column. -/
structure Row where
  key : Option String
  data : Option String
deriving DecidableEq, Repr

/-- Per-character lower-casing of a string, the behaviour of `.str.lower()`
on the ASCII pass/fail tokens. -/
def lowerString (s : String) : String :=
  ⟨s.data.map Char.toLower⟩

/-- The pass test applied by `df[col].str.lower() == 'pass'`: a cell matches
iff it is non-null and its lower-cased value is `"pass"`. -/
def isPass : Option String → Bool
  | some s => lowerString s == "pass"
  | none => false

/-- `df.groupby(key_column)[col].count()` at group key `k`: the rows of the
group (key equal to `k`), then the count of non-null `col` values among them. -/
def totalCount (rows : List Row) (k : String) : Nat :=
  ((rows.filter (fun r => r.key == some k)).filter (fun r => r.data.isSome)).length

/-- `df[df[col].str.lower() == 'pass'].groupby(key_column)[col].count()` at
group key `k`, with a missing group read as 0 (the `fillna(0)` after the
dataframe alignment): filter the pass rows, take the group of key `k`, count
the non-null `col` values. -/
def passesCount (rows : List Row) (k : String) : Nat :=
  (((rows.filter (fun r => isPass r.data)).filter (fun r => r.key == some k)).filter
    (fun r => r.data.isSome)).length

/-- `(passes / total * 100).fillna(0)`: when `total = 0` the quotient is
`0 / 0 = NaN` (since `passes ≤ total`), mapped to 0 by `fillna`. -/
def percentage (rows : List Row) (k : String) : ℚ :=
  if totalCount rows k = 0 then 0
  else (passesCount rows k : ℚ) / (totalCount rows k : ℚ) * 100

/-- Code-point lexicographic comparison of character lists — the order Python
(and hence the pandas groupby sort) uses on strings. -/
def charListLe : List Char → List Char → Bool
  | [], _ => true
  | _ :: _, [] => false
  | a :: as, b :: bs =>
    if a.toNat < b.toNat then true
    else if b.toNat < a.toNat then false
    else charListLe as bs

/-- Code-point lexicographic order on strings. -/
def strLE (a b : String) : Prop :=
  charListLe a.data b.data = true

instance : DecidableRel strLE := fun a b => by
  unfold strLE; infer_instance

/-- The index of the summary dataframe: the distinct non-null key values, in
the sorted order produced by `groupby`. -/
def groupKeys (rows : List Row) : List String :=
  List.insertionSort strLE (rows.filterMap Row.key).dedup

/-- A cell of the emitted 2D chart array: a string label or a number. -/
inductive Cell where
  | str (s : String)
  | num (q : ℚ)
deriving DecidableEq, Repr

/-- `data_list = [[key_column, 'Pass Percentage']]` extended with
`summary_df[['percentage']].reset_index().values.tolist()`: one row
`[key, percentage]` per group key, in index order. -/
def chartDataset (keyColumn : String) (rows : List Row) : List (List Cell) :=
  [Cell.str keyColumn, Cell.str "Pass Percentage"] ::
    (groupKeys rows).map (fun k => [Cell.str k, Cell.num (percentage rows k)])

/-- The key cell of a dataset data row (first component when it is a label). -/
def cellKey : List Cell → Option String
  | Cell.str s :: _ => some s
  | _ => none

/-- The distinct values of a list in first-seen (first occurrence) order —
what the ordering claim asserts the emitted dataset uses. -/
def distinctFirstSeen : List String → List String
  | [] => []
  | a :: l => a :: (distinctFirstSeen l).filter (fun b => b != a)

/-- First-seen distinct non-null key values of a table. -/
def firstSeenKeys (rows : List Row) : List String :=
  distinctFirstSeen (rows.filterMap Row.key)

/-! ## The full table, validation and rendering

`main` parses the CSV into a dataframe, checks that the key column and every
data column occur in `df.columns` (reporting the first missing one together
with the available columns, and exiting with code 1), and only then calls
`create_google_charts_html`, which computes the chart data, builds the HTML
and writes it, exiting with code 1 on an `IOError`. -/

/-- The parsed CSV: a header (the column names) and rows of cells, where a
cell is `none` when the field is blank (pandas reads it as NaN). -/
structure Table where
  header : List String
  rows : List (List (Option String))
deriving Repr

/-- The cell of a row under a named column. -/
def getCell (header : List String) (row : List (Option String)) (c : String) :
    Option String :=
  (row.get? (header.indexOf c)).join

/-- A table projected to the key column and one data column, the view the
aggregation loop works on for each `col in data_columns`. -/
def projectRows (t : Table) (keyColumn dataColumn : String) : List Row :=
  t.rows.map (fun r => ⟨getCell t.header r keyColumn, getCell t.header r dataColumn⟩)

/-- `col.replace(' ', '_')`: the normalization applied to a column name before
it is spliced into the generated chart-drawing function name. -/
def normalizeCol (c : String) : String :=
  ⟨c.data.map (fun ch => if ch = ' ' then '_' else ch)⟩

/-- `draw_{col.replace(' ', '_')}_Chart`, the JavaScript function name
generated for a data column. -/
def chartFunctionName (c : String) : String :=
  "draw_" ++ normalizeCol c ++ "_Chart"

/-- `chart_div_{i}`, the container id generated for the chart at position
`i` of the data-column list. -/
def chartDivId (i : Nat) : String :=
  "chart_div_" ++ Nat.repr i

/-- One generated `<script>` chart block: the drawing-function name, the id of
the container it draws into, the chart title and the serialized dataset. -/
structure ChartBlock where
  functionName : String
  divId : String
  title : String
  dataset : List (List Cell)
deriving DecidableEq, Repr

/-- The per-column `<script>` blocks, in data-column order: block `i` is
generated from `data_columns[i]`, draws into `chart_div_{i}`, and carries the
title `Pass Percentage for {col}` and that column's dataset. -/
def chartBlocks (t : Table) (keyColumn : String) (dataColumns : List String) :
    List ChartBlock :=
  dataColumns.enum.map (fun p =>
    { functionName := chartFunctionName p.2
      divId := chartDivId p.1
      title := "Pass Percentage for " ++ p.2
      dataset := chartDataset keyColumn (projectRows t keyColumn p.2) })

/-- The ids of the `<div>` container elements emitted in the body, in
data-column order: `<div id="chart_div_{i}" class="chart-container">`. -/
def divIds (dataColumns : List String) : List String :=
  dataColumns.enum.map (fun p => chartDivId p.1)

/-- The structured content of the generated HTML document. -/
structure HtmlOutput where
  blocks : List ChartBlock
  divs : List String
deriving DecidableEq, Repr

/-- `create_google_charts_html` without the final write: compute every chart
block and every container div. -/
def render (t : Table) (keyColumn : String) (dataColumns : List String) :
    HtmlOutput :=
  { blocks := chartBlocks t keyColumn dataColumns
    divs := divIds dataColumns }

/-- The failure exits of the pipeline that depend on the request (the
file-level `FileNotFound`/`ParseError` exits happen before the part of the
program modelled here). Every error leads to `sys.exit(1)` with a diagnostic
on `stderr`. -/
inductive PipelineError where
  | missingColumn (col : String) (available : List String)
  | writeError (path : String) (reason : String)
deriving DecidableEq, Repr

/-- Whether `Except` holds a success value. -/
def isOkE {ε α : Type} : Except ε α → Bool
  | .ok _ => true
  | .error _ => false

/-- The pipeline from a parsed table on: `main`'s column validation (the first
column of `[key_column] + data_columns` missing from the header aborts with
the diagnostic naming it and the available columns), then
`create_google_charts_html` (render, then the guarded write). The filesystem
is abstracted as `osWrite`, mapping the output path to `ok` or to the
`IOError` text; on success the output path and document are returned. -/
def run (osWrite : String → Except String Unit) (t : Table) (keyColumn : String)
    (dataColumns : List String) (outputPath : String) :
    Except PipelineError (String × HtmlOutput) :=
  match (keyColumn :: dataColumns).find? (fun c => !(t.header.contains c)) with
  | some c => .error (.missingColumn c t.header)
  | none =>
    let out := render t keyColumn dataColumns
    match osWrite outputPath with
    | .error e => .error (.writeError outputPath e)
    | .ok _ => .ok (outputPath, out)

/-! ## Properties of the code-point order -/

theorem charListLe_total : ∀ as bs : List Char,
    charListLe as bs = true ∨ charListLe bs as = true
  | [], bs => by left; simp [charListLe]
  | a :: as, [] => by right; simp [charListLe]
  | a :: as, b :: bs => by
    by_cases h1 : a.toNat < b.toNat
    · left; simp [charListLe, h1]
    · by_cases h2 : b.toNat < a.toNat
      · right; simp [charListLe, h1, h2]
      · have := charListLe_total as bs
        rcases this with h | h
        · left; simp [charListLe, h1, h2, h]
        · right; simp [charListLe, h1, h2, h]

theorem charListLe_trans : ∀ as bs cs : List Char,
    charListLe as bs = true → charListLe bs cs = true → charListLe as cs = true
  | [], _, _ => by simp [charListLe]
  | a :: as, [], cs => by simp [charListLe]
  | a :: as, b :: bs, [] => by simp [charListLe]
  | a :: as, b :: bs, c :: cs => by
    intro hab hbc
    simp only [charListLe] at hab hbc ⊢
    rcases Nat.lt_trichotomy b.toNat a.toNat with hba | hba | hba
    · have h1 : ¬ a.toNat < b.toNat := by omega
      simp [h1, hba] at hab
    · have h1 : ¬ a.toNat < b.toNat := by omega
      have h2 : ¬ b.toNat < a.toNat := by omega
      simp [h1, h2] at hab
      rcases Nat.lt_trichotomy c.toNat b.toNat with hcb | hcb | hcb
      · have h3 : ¬ b.toNat < c.toNat := by omega
        simp [h3, hcb] at hbc
      · have h3 : ¬ b.toNat < c.toNat := by omega
        have h4 : ¬ c.toNat < b.toNat := by omega
        simp [h3, h4] at hbc
        have h5 : ¬ a.toNat < c.toNat := by omega
        have h6 : ¬ c.toNat < a.toNat := by omega
        simp [h5, h6]
        exact charListLe_trans as bs cs hab hbc
      · have hac : a.toNat < c.toNat := by omega
        simp [hac]
    · rcases Nat.lt_trichotomy c.toNat b.toNat with hcb | hcb | hcb
      · have h3 : ¬ b.toNat < c.toNat := by omega
        simp [h3, hcb] at hbc
      · have hac : a.toNat < c.toNat := by omega
        simp [hac]
      · have hac : a.toNat < c.toNat := by omega
        simp [hac]

instance : IsTotal String strLE :=
  ⟨fun a b => charListLe_total a.data b.data⟩

instance : IsTrans String strLE :=
  ⟨fun a b c => charListLe_trans a.data b.data c.data⟩

/-! ## Injectivity of the decimal representation

Needed for the distinctness of the generated `chart_div_{i}` container ids:
`Nat.repr` (the meaning of `{i}` in the f-string) is injective. The proof
reads the digit characters back with a left fold. -/

/-- Numeric value of a decimal digit character. -/
def digitVal (c : Char) : Nat := c.toNat - 48

/-- Fold a most-significant-first digit-character list onto an accumulator. -/
def foldDigits (a : Nat) (l : List Char) : Nat :=
  l.foldl (fun acc c => 10 * acc + digitVal c) a

theorem digitVal_digitChar {d : Nat} (h : d < 10) :
    digitVal (Nat.digitChar d) = d := by
  interval_cases d <;> decide

theorem foldDigits_toDigitsCore :
    ∀ fuel n : Nat, n < fuel → ∀ (acc : List Char) (a : Nat),
      ∃ m : Nat, 0 < m ∧
        foldDigits a (Nat.toDigitsCore 10 fuel n acc) = foldDigits (a * m + n) acc
  | 0, n, h => absurd h (Nat.not_lt_zero n)
  | fuel + 1, n, h => by
    intro acc a
    have hmod : n % 10 < 10 := Nat.mod_lt _ (by norm_num)
    by_cases hq : n / 10 = 0
    · refine ⟨10, by norm_num, ?_⟩
      have hn : n = n % 10 := by omega
      simp only [Nat.toDigitsCore, hq, if_pos]
      show foldDigits (10 * a + digitVal (Nat.digitChar (n % 10))) acc = _
      rw [digitVal_digitChar hmod]
      congr 1
      omega
    · have hqlt : n / 10 < fuel := by
        have h1 : n / 10 < n := Nat.div_lt_self (by omega) (by norm_num)
        omega
      obtain ⟨m, hm, hrec⟩ :=
        foldDigits_toDigitsCore fuel (n / 10) hqlt
          (Nat.digitChar (n % 10) :: acc) a
      refine ⟨10 * m, by omega, ?_⟩
      simp only [Nat.toDigitsCore, hq, if_neg, ite_false]
      rw [hrec]
      show foldDigits (10 * (a * m + n / 10) + digitVal (Nat.digitChar (n % 10))) acc = _
      rw [digitVal_digitChar hmod]
      congr 1
      have hmul : a * (10 * m) = 10 * (a * m) := by ring
      rw [hmul]
      omega

theorem foldDigits_reprData (n : Nat) : foldDigits 0 (Nat.repr n).data = n := by
  obtain ⟨m, hm, h⟩ :=
    foldDigits_toDigitsCore (n + 1) n (Nat.lt_succ_self n) [] 0
  have hdata : (Nat.repr n).data = Nat.toDigits 10 n := rfl
  rw [hdata]
  show foldDigits 0 (Nat.toDigitsCore 10 (n + 1) n []) = n
  rw [h]
  simp [foldDigits]

theorem natRepr_data_injective {i j : Nat}
    (h : (Nat.repr i).data = (Nat.repr j).data) : i = j := by
  have hi := foldDigits_reprData i
  have hj := foldDigits_reprData j
  rw [h] at hi
  omega

theorem chartDivId_injective : Function.Injective chartDivId := by
  intro i j h
  have hdata : ("chart_div_").data ++ (Nat.repr i).data =
      ("chart_div_").data ++ (Nat.repr j).data := by
    have := congrArg String.data h
    simpa [chartDivId] using this
  exact natRepr_data_injective (List.append_cancel_left hdata)

/-! ## Helper lemmas -/

theorem length_filter_mono {α : Type} {p q : α → Bool} (l : List α)
    (h : ∀ a, p a = true → q a = true) :
    (l.filter p).length ≤ (l.filter q).length := by
  induction l with
  | nil => simp
  | cons a l ih =>
    by_cases hp : p a = true
    · simp [List.filter, hp, h a hp]
      omega
    · by_cases hq : q a = true <;>
        simp [List.filter, hp, hq] <;> omega

/-- The key cells of the data rows of a dataset are exactly the group keys. -/
theorem dataset_tail_keys (kc : String) (rows : List Row) :
    (chartDataset kc rows).tail.filterMap cellKey = groupKeys rows := by
  rw [chartDataset, List.tail_cons, List.filterMap_map]
  have : (cellKey ∘ fun k => [Cell.str k, Cell.num (percentage rows k)]) =
      fun k => some k := by
    funext k; rfl
  rw [this]
  induction groupKeys rows with
  | nil => rfl
  | cons a l ih => simp [List.filterMap_cons, ih]

theorem contains_iff_mem {l : List String} {a : String} :
    l.contains a = true ↔ a ∈ l := by
  induction l with
  | nil => simp
  | cons b l ih =>
    simp only [List.contains_cons, Bool.or_eq_true, beq_iff_eq, ih, List.mem_cons]

theorem find?_skips_to_first_hit {α : Type} (p : α → Bool) :
    ∀ (l1 : List α) (c : α) (l2 : List α),
      (∀ a ∈ l1, p a = false) → p c = true →
      (l1 ++ c :: l2).find? p = some c
  | [], c, l2, _, hc => by simp [List.find?_cons, hc]
  | a :: l1, c, l2, h, hc => by
    have ha : p a = false := h a (List.mem_cons_self a l1)
    rw [List.cons_append, List.find?_cons, ha]
    exact find?_skips_to_first_hit p l1 c l2 (fun b hb => h b (List.mem_cons_of_mem a hb)) hc

/-- When the key column and all data columns occur in the header, `main`'s
validation loop finds nothing missing. -/
theorem validation_passes {t : Table} {keyColumn : String} {dataColumns : List String}
    (hcols : ∀ c ∈ keyColumn :: dataColumns, c ∈ t.header) :
    (keyColumn :: dataColumns).find? (fun c => !(t.header.contains c)) = none := by
  rw [List.find?_eq_none]
  intro c hc
  simpa using hcols c hc

theorem passesCount_le_totalCount (rows : List Row) (k : String) :
    passesCount rows k ≤ totalCount rows k := by
  unfold passesCount totalCount
  simp only [List.filter_filter]
  apply length_filter_mono
  intro r hr
  simp only [Bool.and_eq_true] at hr ⊢
  tauto

/-! ## Concrete tables used in the claims -/

/-- The scenario table: `[{unit:A, result:pass}, {unit:A, result:fail},
{unit:B, result:pass}]` projected to `key_column=unit`, data column
`result`. -/
def scenarioRows : List Row :=
  [⟨some "A", some "pass"⟩, ⟨some "A", some "fail"⟩, ⟨some "B", some "pass"⟩]

/-- Keys arrive in the order `B`, `A`: first-seen order is `[B, A]`. -/
def reorderedRows : List Row :=
  [⟨some "B", some "pass"⟩, ⟨some "A", some "pass"⟩]

/-- A partition for key `A` with one null data cell. -/
def partialNullRows : List Row :=
  [⟨some "A", some "pass"⟩, ⟨some "A", none⟩]

/-- Key `C` occurs only with a null data cell. -/
def allNullRows : List Row :=
  [⟨some "C", none⟩]

/-! ## Claims about the aggregator -/

/-- C1: for every table the dataset starts with the header row
`[key_column, "Pass Percentage"]`, its data rows are `[key, percentage key]`
with exactly one row per distinct (non-null) key value, and on the scenario
table with `key_column = unit`, `data_columns = [result]` the dataset is
`[["unit", "Pass Percentage"], ["A", 50.0], ["B", 100.0]]`. -/
theorem chartDataset_shape :
    (∀ (kc : String) (rows : List Row),
        (chartDataset kc rows).head? =
          some [Cell.str kc, Cell.str "Pass Percentage"] ∧
        ((chartDataset kc rows).tail.filterMap cellKey).Perm
          (rows.filterMap Row.key).dedup ∧
        ((chartDataset kc rows).tail.filterMap cellKey).Nodup ∧
        ∀ row ∈ (chartDataset kc rows).tail,
          ∃ k : String, row = [Cell.str k, Cell.num (percentage rows k)]) ∧
    chartDataset "unit" scenarioRows =
      [[Cell.str "unit", Cell.str "Pass Percentage"],
       [Cell.str "A", Cell.num 50], [Cell.str "B", Cell.num 100]] := by
  constructor
  · intro kc rows
    have hkeys := dataset_tail_keys kc rows
    refine ⟨rfl, ?_, ?_, ?_⟩
    · rw [hkeys]
      exact List.perm_insertionSort strLE _
    · rw [hkeys]
      exact ((List.perm_insertionSort strLE _).nodup_iff).mpr (List.nodup_dedup _)
    · intro row hrow
      simp only [chartDataset, List.tail_cons, List.mem_map] at hrow
      obtain ⟨k, _, hk⟩ := hrow
      exact ⟨k, hk.symm⟩
  · have hA : percentage scenarioRows "A" = 50 := by
      rw [percentage, show totalCount scenarioRows "A" = 2 from by decide,
        show passesCount scenarioRows "A" = 1 from by decide]
      norm_num
    have hB : percentage scenarioRows "B" = 100 := by
      rw [percentage, show totalCount scenarioRows "B" = 1 from by decide,
        show passesCount scenarioRows "B" = 1 from by decide]
      norm_num
    rw [chartDataset, show groupKeys scenarioRows = ["A", "B"] from by decide]
    simp [hA, hB]

/-- Witness for C1: the data row `["A", 50.0]` of the scenario dataset has the
shape `[key, percentage key]`. -/
theorem chartDataset_shape_witness :
    ∃ k : String, ([Cell.str "A", Cell.num 50] : List Cell) =
      [Cell.str k, Cell.num (percentage scenarioRows k)] := by
  apply (chartDataset_shape.1 "unit" scenarioRows).2.2.2
  rw [chartDataset_shape.2]
  simp

/-- C2: per group, `passes ≤ total`, the percentage lies in `[0, 100]`, and an
empty group (total 0) yields percentage 0 — never NaN, which the embedding
makes impossible by construction (`fillna(0)` is the `if` in `percentage`). -/
theorem groupSummary_invariants (rows : List Row) (k : String) :
    passesCount rows k ≤ totalCount rows k ∧
    0 ≤ percentage rows k ∧ percentage rows k ≤ 100 ∧
    (totalCount rows k = 0 → percentage rows k = 0) := by
  refine ⟨passesCount_le_totalCount rows k, ?_, ?_, ?_⟩
  · rw [percentage]
    split
    · norm_num
    · positivity
  · rw [percentage]
    split
    · norm_num
    · rename_i h
      have ht : (0 : ℚ) < (totalCount rows k : ℚ) := by
        exact_mod_cast Nat.pos_of_ne_zero h
      have hp : (passesCount rows k : ℚ) ≤ (totalCount rows k : ℚ) := by
        exact_mod_cast passesCount_le_totalCount rows k
      have hdiv : (passesCount rows k : ℚ) / (totalCount rows k : ℚ) ≤ 1 :=
        (div_le_one ht).mpr hp
      nlinarith [hdiv]
  · intro h
    simp [percentage, h]

/-- Witness for C2: a group whose rows all have null data cells has total 0
and percentage 0. -/
theorem groupSummary_invariants_witness :
    percentage allNullRows "C" = 0 :=
  (groupSummary_invariants allNullRows "C").2.2.2 (by decide)

/-- C3: a row counts toward `passes` exactly when its data value lower-cases
to the literal `pass`: `"Pass"`, `"PASS"`, `"pass"` count; `"Fail"`, `"fail"`,
`""`, `"N/A"` and null cells never do. -/
theorem pass_token_detection :
    (∀ k v : String,
        passesCount [⟨some k, some v⟩] k =
          if lowerString v = "pass" then 1 else 0) ∧
    (∀ k : String, passesCount [⟨some k, none⟩] k = 0) ∧
    passesCount [⟨some "u", some "Pass"⟩] "u" = 1 ∧
    passesCount [⟨some "u", some "PASS"⟩] "u" = 1 ∧
    passesCount [⟨some "u", some "pass"⟩] "u" = 1 ∧
    passesCount [⟨some "u", some "Fail"⟩] "u" = 0 ∧
    passesCount [⟨some "u", some "fail"⟩] "u" = 0 ∧
    passesCount [⟨some "u", some ""⟩] "u" = 0 ∧
    passesCount [⟨some "u", some "N/A"⟩] "u" = 0 := by
  refine ⟨?_, ?_, by decide, by decide, by decide, by decide, by decide,
    by decide, by decide⟩
  · intro k v
    by_cases hv : lowerString v = "pass"
    · simp [passesCount, isPass, List.filter, hv]
    · have hb : (lowerString v == "pass") = false := beq_eq_false_iff_ne.mpr hv
      simp [passesCount, isPass, List.filter, hb, hv]
  · intro k
    simp [passesCount, isPass, List.filter]

/-- Counterexample to C4: on a table whose keys first appear in the order
`B`, `A`, the dataset's data rows carry the keys `A`, `B` (the groupby sort),
not the first-seen order `B`, `A`. -/
theorem dataset_not_first_seen_order :
    (chartDataset "unit" reorderedRows).tail.filterMap cellKey ≠
      firstSeenKeys reorderedRows := by
  rw [dataset_tail_keys]
  decide

/-- C4 amended: the data rows of each emitted dataset appear in ascending
code-point order of the distinct key values (pandas `groupby` sorts group
keys by default), and are a permutation of the distinct non-null key
values — not in first-seen order. -/
theorem dataset_sorted_order (kc : String) (rows : List Row) :
    ((chartDataset kc rows).tail.filterMap cellKey).Sorted strLE ∧
    ((chartDataset kc rows).tail.filterMap cellKey).Perm
      (rows.filterMap Row.key).dedup := by
  rw [dataset_tail_keys]
  exact ⟨List.sorted_insertionSort strLE _, List.perm_insertionSort strLE _⟩

/-- Witness for C4 amended: on the table whose keys first appear as `B`, `A`,
the emitted data-row keys are sorted. -/
theorem dataset_sorted_order_witness :
    ((chartDataset "unit" reorderedRows).tail.filterMap cellKey).Sorted strLE ∧
    ((chartDataset "unit" reorderedRows).tail.filterMap cellKey).Perm
      (reorderedRows.filterMap Row.key).dedup :=
  dataset_sorted_order "unit" reorderedRows

/-- Counterexample to C5: for a partition of two rows, one with a null data
cell, `total` is 1, not the partition size 2. -/
theorem total_not_partition_size :
    totalCount partialNullRows "A" ≠
      (partialNullRows.filter (fun r => r.key == some "A")).length := by
  decide

/-- C5 amended: `total` is the number of rows of the partition whose data cell
is non-null (pandas `count()` skips NaN). It never exceeds the partition size
and equals it exactly when no row of the partition has a missing data value. -/
theorem total_counts_nonnull (rows : List Row) (k : String) :
    totalCount rows k ≤ (rows.filter (fun r => r.key == some k)).length ∧
    (totalCount rows k = (rows.filter (fun r => r.key == some k)).length ↔
      ∀ r ∈ rows, r.key = some k → r.data.isSome) := by
  refine ⟨List.length_filter_le _ _, ?_, ?_⟩
  · intro h r hr hk
    have hfull : ((rows.filter (fun r => r.key == some k)).filter
        (fun r => r.data.isSome)) = rows.filter (fun r => r.key == some k) :=
      List.Sublist.eq_of_length (List.filter_sublist _) h
    have hmem : r ∈ rows.filter (fun r => r.key == some k) :=
      List.mem_filter.mpr ⟨hr, beq_iff_eq.mpr hk⟩
    rw [← hfull] at hmem
    exact (List.mem_filter.mp hmem).2
  · intro h
    unfold totalCount
    rw [List.filter_eq_self.mpr]
    intro r hr
    have := List.mem_filter.mp hr
    exact h r this.1 (eq_of_beq this.2)

/-- Witness for C5 amended: when every row of the partition has a data value,
`total` equals the partition size. -/
theorem total_counts_nonnull_witness :
    totalCount scenarioRows "A" =
      (scenarioRows.filter (fun r => r.key == some "A")).length :=
  (total_counts_nonnull scenarioRows "A").2.mpr (by decide)

/-- Counterexample to C6: key `C` occurs only with a null data cell, so it is
observed in no non-null row of the data column, yet the dataset fabricates
the zero-row `["C", 0.0]`. -/
theorem fabricated_zero_row :
    chartDataset "unit" allNullRows =
      [[Cell.str "unit", Cell.str "Pass Percentage"],
       [Cell.str "C", Cell.num 0]] ∧
    allNullRows.filter (fun r => r.key == some "C" && r.data.isSome) = [] := by
  refine ⟨?_, by decide⟩
  have h0 : percentage allNullRows "C" = 0 := by
    simp [percentage, show totalCount allNullRows "C" = 0 from by decide]
  rw [chartDataset, show groupKeys allNullRows = ["C"] from by decide]
  simp [h0]

/-- C6 amended: the dataset for a data column contains a data row for key `k`
iff some row of the table has key `k` — whether or not that key is ever
observed with a non-null value in this data column; keys with only null data
cells receive a (fabricated) zero-percentage row. -/
theorem dataset_keys_are_table_keys (kc k : String) (rows : List Row) :
    k ∈ (chartDataset kc rows).tail.filterMap cellKey ↔
      ∃ r ∈ rows, r.key = some k := by
  rw [dataset_tail_keys]
  unfold groupKeys
  rw [List.mem_insertionSort, List.mem_dedup, List.mem_filterMap]

/-- Witness for C6 amended: `C` gets a data row in the dataset of
`allNullRows` because a row with key `C` exists, despite the data column
being null there. -/
theorem dataset_keys_are_table_keys_witness :
    "C" ∈ (chartDataset "unit" allNullRows).tail.filterMap cellKey :=
  (dataset_keys_are_table_keys "unit" "C" allNullRows).mpr
    ⟨⟨some "C", none⟩, by decide, rfl⟩

/-! ## Claims about validation and rendering -/

/-- A header with two data columns whose names collide after the space-to-
underscore normalization. -/
def collideTable : Table := ⟨["k", "a b", "a_b"], []⟩

/-- C7: when the key column or a data column is absent from the header, the
run fails with the diagnostic naming the first missing column (in the order
`[key_column] + data_columns`) and carrying the full set of available
columns. The result does not depend on the filesystem (`osWrite` is
arbitrary), so no output is written: validation aborts before rendering. -/
theorem missingColumn_diagnostic (osWrite : String → Except String Unit)
    (t : Table) (keyColumn : String) (dataColumns : List String)
    (outputPath : String) (c : String) (l1 l2 : List String)
    (hsplit : keyColumn :: dataColumns = l1 ++ c :: l2)
    (hbefore : ∀ c' ∈ l1, c' ∈ t.header)
    (hmiss : c ∉ t.header) :
    run osWrite t keyColumn dataColumns outputPath =
      .error (.missingColumn c t.header) := by
  unfold run
  rw [hsplit, find?_skips_to_first_hit]
  · intro a ha
    simpa using hbefore a ha
  · simpa using hmiss

/-- Witness for C7: requesting the data column `bogus` against the header
`[unit, result]` reports `bogus` with the available columns, for any
filesystem behaviour. -/
theorem missingColumn_diagnostic_witness :
    run (fun _ => .error "disk on fire") ⟨["unit", "result"], []⟩ "unit"
      ["bogus"] "charts.html" =
      .error (.missingColumn "bogus" ["unit", "result"]) :=
  missingColumn_diagnostic _ _ _ _ _ "bogus" ["unit"] [] rfl (by decide) (by decide)

/-- Counterexample to C8: the data columns `"a b"` and `"a_b"` collide on the
normalized identifier, yet the run succeeds — the code has no
`DuplicateChartIdentifier` failure at all. -/
theorem no_duplicate_identifier_failure :
    chartFunctionName "a b" = chartFunctionName "a_b" ∧
    isOkE (run (fun _ => .ok ()) collideTable "k" ["a b", "a_b"] "charts.html") =
      true := by
  exact ⟨by decide, rfl⟩

/-- C8 amended: the renderer normalizes column names by replacing spaces with
underscores when forming the chart-drawing function names, but it does not
fail when two columns collide on the normalized identifier: the run still
succeeds, emitting one block per column (colliding columns share a function
name). -/
theorem collision_tolerated (osWrite : String → Except String Unit) (t : Table)
    (keyColumn : String) (dataColumns : List String) (outputPath : String)
    (hcols : ∀ c ∈ keyColumn :: dataColumns, c ∈ t.header)
    (hw : osWrite outputPath = .ok ()) :
    run osWrite t keyColumn dataColumns outputPath =
      .ok (outputPath, render t keyColumn dataColumns) ∧
    (render t keyColumn dataColumns).blocks.map ChartBlock.functionName =
      dataColumns.map chartFunctionName ∧
    ∀ c : String, ' ' ∉ (normalizeCol c).data := by
  refine ⟨?_, ?_, ?_⟩
  · unfold run
    rw [validation_passes hcols, hw]
  · simp only [render, chartBlocks, List.map_map]
    have : (ChartBlock.functionName ∘ fun p : Nat × String =>
        ChartBlock.mk (chartFunctionName p.2) (chartDivId p.1)
          ("Pass Percentage for " ++ p.2)
          (chartDataset keyColumn (projectRows t keyColumn p.2))) =
        chartFunctionName ∘ Prod.snd := rfl
    rw [this, ← List.map_map, List.enum_eq_enumFrom, List.enumFrom_map_snd]
  · intro c hc
    simp only [normalizeCol, List.mem_map] at hc
    obtain ⟨ch, _, hch⟩ := hc
    by_cases h : ch = ' ' <;> simp [h] at hch

/-- Witness for C8 amended: the colliding request `["a b", "a_b"]` still
renders successfully. -/
theorem collision_tolerated_witness :
    run (fun _ => .ok ()) collideTable "k" ["a b", "a_b"] "charts.html" =
      .ok ("charts.html", render collideTable "k" ["a b", "a_b"]) :=
  (collision_tolerated _ _ _ _ _ (by decide) rfl).1

/-- C9: when the filesystem refuses the output path, the run fails with the
`WriteError` diagnostic carrying the path and the underlying I/O reason, and
returns no written file (the error result carries no path/content). -/
theorem writeError_diagnostic (osWrite : String → Except String Unit)
    (t : Table) (keyColumn : String) (dataColumns : List String)
    (outputPath reason : String)
    (hcols : ∀ c ∈ keyColumn :: dataColumns, c ∈ t.header)
    (hw : osWrite outputPath = .error reason) :
    run osWrite t keyColumn dataColumns outputPath =
      .error (.writeError outputPath reason) := by
  unfold run
  rw [validation_passes hcols, hw]

/-- Witness for C9: an output path in a non-existent directory (oracle
refusing with the OS reason) produces the `WriteError` diagnostic. -/
theorem writeError_diagnostic_witness :
    run (fun _ => .error "No such file or directory")
      ⟨["unit", "result"], []⟩ "unit" ["result"] "/no/such/dir/charts.html" =
      .error (.writeError "/no/such/dir/charts.html"
        "No such file or directory") :=
  writeError_diagnostic _ _ _ _ _ _ (by decide) rfl

/-- C10: for `n` data columns — duplicates or space/underscore collisions
included — the renderer emits exactly `n` container divs with ids
`chart_div_0 … chart_div_{n-1}`, pairwise distinct because they derive from
the position, and the `i`-th chart-drawing block targets `chart_div_i`. -/
theorem container_ids_positional (t : Table) (keyColumn : String)
    (dataColumns : List String) :
    (render t keyColumn dataColumns).divs.length = dataColumns.length ∧
    (render t keyColumn dataColumns).divs.Nodup ∧
    ∀ i : Nat, i < dataColumns.length →
      ((render t keyColumn dataColumns).blocks[i]?).map ChartBlock.divId =
        some (chartDivId i) ∧
      (render t keyColumn dataColumns).divs[i]? = some (chartDivId i) := by
  refine ⟨?_, ?_, ?_⟩
  · simp [render, divIds, List.enum_length]
  · have hrw : (render t keyColumn dataColumns).divs =
        (List.range dataColumns.length).map chartDivId := by
      simp only [render, divIds]
      rw [show (fun p : Nat × String => chartDivId p.1) =
          chartDivId ∘ Prod.fst from rfl,
        ← List.map_map, List.enum_map_fst]
    rw [hrw]
    exact List.Nodup.map chartDivId_injective (List.nodup_range _)
  · intro i hi
    have hcol : dataColumns[i]? = some (dataColumns[i]) :=
      List.getElem?_eq_getElem hi
    constructor
    · simp [render, chartBlocks, List.getElem?_map, List.getElem?_enum, hcol]
    · simp [render, divIds, List.getElem?_map, List.getElem?_enum, hcol]

/-- Witness for C10: with colliding column names, the second block still
targets the positional id `chart_div_1`. -/
theorem container_ids_positional_witness :
    ((render collideTable "k" ["a b", "a_b"]).blocks[1]?).map
        ChartBlock.divId = some (chartDivId 1) :=
  ((container_ids_positional collideTable "k" ["a b", "a_b"]).2.2 1
    (by decide)).1

end CsvToHtml
